import Mathlib

/-!
Verification development for the `ns-nano` loader (src/create_db.py, src/check_db.py).

The Python sources are shallowly embedded below.  Data frames are modelled as
lists of already-coerced column values: `pd.to_numeric(s, errors="coerce")`
turns every cell into either a real number (modelled as `ℚ`), `NaN` (which also
covers nulls and non-numeric strings), or `±inf`.  Python floats are modelled as
rationals; the loader only compares them to zero and tests finiteness, so no
floating-point rounding behaviour is involved in any claim.  Python dicts are
modelled as association lists with first-occurrence ordering and last-value-wins
update, matching CPython semantics.
-/

/-- A coerced cell value, i.e. the result of `pd.to_numeric(col, errors="coerce")`:
a finite real number, `NaN` (also covering nulls and unparsable strings), or an
infinity. -/
inductive CVal where
  | fin (q : ℚ)
  | nan
  | posInf
  | negInf
deriving DecidableEq

/-- `np.isfinite` on a coerced cell. -/
def isFiniteB : CVal → Bool
  | .fin _ => true
  | _ => false

/-- NumPy comparison `col > 0` on a coerced cell: `NaN > 0` is false and
`inf > 0` is true. -/
def gtZeroB : CVal → Bool
  | .fin q => decide (0 < q)
  | .posInf => true
  | _ => false

/-- The cell mask of `build_annotations` line 247: `np.isfinite(col) & (col > 0)`. -/
def maskB (v : CVal) : Bool := isFiniteB v && gtZeroB v

/-- The numeric value of a cell that passed the finiteness mask
(`col[idx].astype(float)`); non-finite cells never reach this projection. -/
def valOf : CVal → ℚ
  | .fin q => q
  | _ => 0

/-- One row of the normalized `annotations_terms` relation, as produced by
`build_annotations` and consumed by `copy_terms`
(`(study_id, contrast_id, term, weight)`, with `contrast_id` nullable). -/
structure TermRow where
  study_id : String
  contrast_id : Option String
  term : String
  weight : ℚ
deriving DecidableEq

/-- The line `copy_terms` (src/create_db.py lines 181-184) writes for one row:
`f"{study_id}\t{cval}\t{term}\t{weight}\n"` with `cval = r'\N'` when
`contrast_id is None`.  Python's `str(float)` rendering of the weight is
abstracted as the canonical decimal rendering of the rational; the weight text
carries no tab, backslash or newline either way, so it is irrelevant to the
escaping question. -/
def copy_terms_line (r : TermRow) : String :=
  let cval := match r.contrast_id with
    | none => "\\N"
    | some c => c
  r.study_id ++ "\t" ++ cval ++ "\t" ++ r.term ++ "\t" ++ toString r.weight ++ "\n"

/-- The full `COPY ... FROM STDIN` payload `copy_terms` streams for a batch. -/
def copy_terms_payload (rows : List TermRow) : String :=
  String.join (rows.map copy_terms_line)

/-- Receiver side of the wire format: a tab-delimited line of exactly four
fields terminated by a newline, with the reserved token `\N` denoting an absent
`contrast_id`.  The weight field is kept textual (parsing it back to a number is
irrelevant to the delimiter/reserved-token question). -/
def parse_copy_line (s : String) : Option (String × Option String × String × String) :=
  if s.data.getLast? = some '\n' then
    match s.data.dropLast.splitOn '\t' with
    | [a, b, c, d] =>
        some (String.mk a,
          (if String.mk b = "\\N" then none else some (String.mk b)),
          String.mk c, String.mk d)
    | _ => none
  else none

/-- Claim C1: `copy_terms` must emit an unambiguously parseable stream — a field
value containing the delimiter or the reserved token must be escaped or
rejected.  The code does neither: a `contrast_id` equal to the literal
two-character string `\N` serializes to the very same line as an absent
`contrast_id`, so parsing maps it back to absence, and a `study_id` containing
the tab delimiter yields a five-field line that no four-field parse recovers.
This refutes the round-trip law at these inputs. -/
theorem copy_terms_no_escape_roundtrip_failure :
    copy_terms_line ⟨"s01", some "\\N", "memory", 1⟩
      = copy_terms_line ⟨"s01", none, "memory", 1⟩
    ∧ (⟨"s01", some "\\N", "memory", 1⟩ : TermRow) ≠ ⟨"s01", none, "memory", 1⟩
    ∧ parse_copy_line (copy_terms_line ⟨"s01", some "\\N", "memory", 1⟩)
      = some ("s01", none, "memory", "1")
    ∧ parse_copy_line (copy_terms_line ⟨"s\t01", none, "memory", 1⟩) = none := by
  decide

/-- The identifier columns excluded from term melting
(`fixed = {"id", "study_id", "contrast_id"}`, src/create_db.py line 201). -/
def fixedCols : List String := ["id", "study_id", "contrast_id"]

/-- The annotations dataframe after the loader's own pre-extraction
(src/create_db.py lines 230-233): `sids` is `df["study_id"].astype(str)`,
`cids` is the `contrast_id` column with nulls mapped to `None` (an all-`None`
list when the column is absent), and `cols` holds every remaining dataframe
column by name with its `pd.to_numeric(..., errors="coerce")` view (the only
view the code ever reads, at lines 239 and 246). -/
structure AnnDF where
  sids : List String
  cids : List (Option String)
  cols : List (String × List CVal)

/-- `str(c).startswith("terms_")` (src/create_db.py line 202), expressed on the
character list so that it evaluates inside the kernel. -/
def startsWithTermsB (s : String) : Bool := "terms_".data.isPrefixOf s.data

/-- `term_cols` (src/create_db.py line 202): the columns outside `fixed` whose
name starts with `"terms_"`. -/
def termColsOf (df : AnnDF) : List (String × List CVal) :=
  df.cols.filter fun p => !(fixedCols.contains p.1) && startsWithTermsB p.1

/-- The `[^_]*__` part of the regex `^terms_[^_]*__`: scan to the first
underscore of the remainder; the match succeeds exactly when that underscore is
immediately doubled, and consumes through the double underscore. -/
def dropVocabSeg : List Char → Option (List Char)
  | [] => none
  | c :: rest =>
      if c = '_' then
        match rest with
        | '_' :: tail => some tail
        | _ => none
      else dropVocabSeg rest

/-- `re.sub(r"^terms_[^_]*__", "", c)` (src/create_db.py line 251): strip the
leading `terms_<vocab>__` segment when present, else leave the name unchanged. -/
def stripTagChars (cs : List Char) : List Char :=
  match cs with
  | 't' :: 'e' :: 'r' :: 'm' :: 's' :: '_' :: rest =>
      (match dropVocabSeg rest with
        | some tail => tail
        | none => cs)
  | _ => cs

/-- Python `str.strip()`: drop leading and trailing whitespace (modelled with
`Char.isWhitespace`; the claims only exercise ASCII whitespace). -/
def trimChars (cs : List Char) : List Char :=
  ((cs.dropWhile Char.isWhitespace).reverse.dropWhile Char.isWhitespace).reverse

/-- Python `str.lower()`, modelled per character (the claims only exercise
ASCII, where `Char.toLower` and Python agree). -/
def lowerChars (cs : List Char) : List Char := cs.map Char.toLower

/-- The derived term name (src/create_db.py line 251):
`re.sub(r"^terms_[^_]*__", "", str(c)).strip().lower()`. -/
def termNameOf (c : String) : String :=
  String.mk (lowerChars (trimChars (stripTagChars c.data)))

/-- The per-column melt (src/create_db.py lines 246-252): zip the pre-extracted
identifier arrays against the coerced column, keep the positions where
`np.isfinite(col) & (col > 0)` holds, and emit one `(study_id, contrast_id,
term, weight)` row per surviving position, all sharing the derived term name. -/
def rowsOfCol (sids : List String) (cids : List (Option String))
    (name : String) (vals : List CVal) : List TermRow :=
  ((sids.zip cids).zip vals).filterMap fun p =>
    if maskB p.2 then some ⟨p.1.1, p.1.2, termNameOf name, valOf p.2⟩ else none

/-- The cheap batch pre-filter (src/create_db.py line 239): keep the columns
with any strictly positive coerced value
(`(pd.to_numeric(df[c], errors="coerce") > 0).any()`). -/
def colAnyPos (vals : List CVal) : Bool := vals.any gtZeroB

/-- One batch body (src/create_db.py lines 238-252): pre-filter the batch's
columns, then melt each survivor in order; a survivor whose final mask is empty
contributes nothing (`continue`). -/
def batchRows (df : AnnDF) (cols : List (String × List CVal)) : List TermRow :=
  ((cols.filter fun c => colAnyPos c.2).map fun c =>
    rowsOfCol df.sids df.cids c.1 c.2).flatten

/-- Worker for `chunksOf`: `cur` is the current chunk (reversed) and `k` the
number of elements it can still take. -/
def chunksGo (B : Nat) : List α → Nat → List α → List (List α)
  | cur, _, [] => if cur.isEmpty then [] else [cur.reverse]
  | cur, 0, x :: xs => cur.reverse :: chunksGo B [x] (B - 1) xs
  | cur, k + 1, x :: xs => chunksGo B (x :: cur) k xs

/-- The batch partition `term_cols[i:i+batch_cols]` for `i in
range(0, len(term_cols), batch_cols)` (src/create_db.py lines 235-236):
consecutive groups of `B` columns in original order (structural recursion for
executability; `chunksOf_cons_eq` below certifies the take/drop slicing). -/
def chunksOf (B : Nat) (l : List α) : List (List α) :=
  match l with
  | [] => []
  | x :: xs => chunksGo B [x] (B - 1) xs

/-- All rows streamed to `copy_terms` across every batch of
`build_annotations`, in emission order (src/create_db.py lines 235-257). -/
def buildTermRows (df : AnnDF) (batch_cols : Nat) : List TermRow :=
  ((chunksOf batch_cols (termColsOf df)).map (batchRows df)).flatten

/-- The batching-free comprehension the batched loop should agree with: melt
every term column in order, with no chunking and no pre-filter. -/
def specTermRows (df : AnnDF) : List TermRow :=
  (termColsOf df).flatMap fun c => rowsOfCol df.sids df.cids c.1 c.2

/-- The number of finite, strictly positive cells of the annotation matrix. -/
def countFinitePosCells (df : AnnDF) : Nat :=
  ((termColsOf df).map fun c => c.2.countP maskB).sum

theorem chunksGo_flatten (B : Nat) : ∀ (xs cur : List α) (k : Nat),
    (chunksGo B cur k xs).flatten = cur.reverse ++ xs := by
  intro xs
  induction xs with
  | nil => intro cur k; cases cur <;> simp [chunksGo]
  | cons x xs ih =>
      intro cur k
      cases k with
      | zero => simp [chunksGo, ih]
      | succ k => simp [chunksGo, ih]

theorem chunksOf_flatten (B : Nat) (l : List α) : (chunksOf B l).flatten = l := by
  cases l <;> simp [chunksOf, chunksGo_flatten]

theorem chunksGo_spec (B : Nat) : ∀ (xs cur : List α) (k : Nat), cur ≠ [] →
    chunksGo B cur k xs = (cur.reverse ++ xs.take k) :: chunksOf B (xs.drop k) := by
  intro xs
  induction xs with
  | nil =>
      intro cur k hcur
      simp [chunksGo, chunksOf, List.isEmpty_iff, hcur]
  | cons x xs ih =>
      intro cur k hcur
      cases k with
      | zero => simp [chunksGo, chunksOf]
      | succ k =>
          rw [chunksGo, ih (x :: cur) k (by simp)]
          simp [List.take_succ_cons, List.drop_succ_cons]

/-- Certificate that `chunksOf` computes the `term_cols[i:i+batch_cols]` slices
of `range(0, len(term_cols), batch_cols)`: for `B ≥ 1` it is the usual
take/drop chunking. -/
theorem chunksOf_cons_eq (B : Nat) (hB : 1 ≤ B) (x : α) (xs : List α) :
    chunksOf B (x :: xs) = ((x :: xs).take B) :: chunksOf B ((x :: xs).drop B) := by
  obtain ⟨b, rfl⟩ := Nat.exists_eq_add_of_le hB
  rw [chunksOf, chunksGo_spec (1 + b) xs [x] (1 + b - 1) (by simp)]
  have hb : 1 + b - 1 = b := by omega
  have h1 : 1 + b = b + 1 := by omega
  simp [hb, h1]

theorem rowsOfCol_length (name : String) : ∀ (vals : List CVal) (sids : List String)
    (cids : List (Option String)), sids.length = vals.length → cids.length = vals.length →
    (rowsOfCol sids cids name vals).length = vals.countP maskB := by
  intro vals
  induction vals with
  | nil => intro sids cids h1 h2; simp [rowsOfCol]
  | cons v vs ih =>
      intro sids cids h1 h2
      cases sids with
      | nil => simp at h1
      | cons s ss =>
          cases cids with
          | nil => simp at h2
          | cons c cc =>
              have hs : ss.length = vs.length := by simpa using h1
              have hc : cc.length = vs.length := by simpa using h2
              have hrec := ih ss cc hs hc
              by_cases hm : maskB v
              · simp [rowsOfCol, List.countP_cons, hm] at hrec ⊢
                exact hrec
              · simp [rowsOfCol, List.countP_cons, hm] at hrec ⊢
                exact hrec

theorem rowsOfCol_eq_nil (sids : List String) (cids : List (Option String))
    (name : String) (vals : List CVal) (h : colAnyPos vals = false) :
    rowsOfCol sids cids name vals = [] := by
  apply List.filterMap_eq_nil_iff.mpr
  intro p hp
  obtain ⟨ab, v⟩ := p
  have hv : v ∈ vals := (List.of_mem_zip hp).2
  have hz : gtZeroB v = false := by
    simp only [colAnyPos, List.any_eq_false] at h
    simpa using h v hv
  simp [maskB, hz]

theorem batchRows_eq (df : AnnDF) : ∀ cols, batchRows df cols =
    cols.flatMap fun c => rowsOfCol df.sids df.cids c.1 c.2 := by
  intro cols
  induction cols with
  | nil => simp [batchRows]
  | cons c cs ih =>
      by_cases h : colAnyPos c.2
      · simp only [batchRows, List.filter_cons, h, if_true, List.map_cons, List.flatten_cons,
          List.flatMap_cons]
        rw [← ih]
        rfl
      · have hnil := rowsOfCol_eq_nil df.sids df.cids c.1 c.2 (by simpa using h)
        simp only [batchRows, List.filter_cons, h, List.flatMap_cons, hnil, List.nil_append]
        rw [← ih]
        simp [batchRows]

theorem flatten_map_flatMap (f : α → List β) : ∀ (ll : List (List α)),
    (ll.map fun l => l.flatMap f).flatten = ll.flatten.flatMap f := by
  intro ll
  induction ll with
  | nil => simp
  | cons l ls ih => simp [ih]

/-- The batched loop of `build_annotations` emits exactly the batching-free
column-order melt: the chunking and the any-positive pre-filter do not change
the emitted rows. -/
theorem buildTermRows_eq_spec (df : AnnDF) (B : Nat) :
    buildTermRows df B = specTermRows df := by
  unfold buildTermRows specTermRows
  have hb : batchRows df = fun cols =>
      cols.flatMap fun c => rowsOfCol df.sids df.cids c.1 c.2 :=
    funext (batchRows_eq df)
  rw [hb, flatten_map_flatMap, chunksOf_flatten]

theorem specTermRows_length (df : AnnDF)
    (h1 : df.cids.length = df.sids.length)
    (h2 : ∀ c ∈ df.cols, (c.2).length = df.sids.length) :
    (specTermRows df).length = countFinitePosCells df := by
  unfold specTermRows countFinitePosCells
  rw [List.length_flatMap]
  apply congrArg List.sum
  apply List.map_congr_left
  intro c hc
  have hcc : c ∈ df.cols := List.mem_of_mem_filter hc
  exact rowsOfCol_length c.1 c.2 df.sids df.cids ((h2 c hcc).symm)
    (h1.trans (h2 c hcc).symm)

/-- Claim C2: a cell of the annotation matrix is emitted as a
`(study_id, contrast_id, term, weight)` row iff its coerced value is finite and
strictly positive: the total number of emitted rows equals the number of such
cells (so zero, negative and non-finite cells produce no row), and every
emitted row carries a strictly positive finite weight.  The hypotheses state
dataframe rectangularity (all columns have the row count). -/
theorem build_annotations_sparsity (df : AnnDF) (B : Nat)
    (h1 : df.cids.length = df.sids.length)
    (h2 : ∀ c ∈ df.cols, (c.2).length = df.sids.length) :
    (buildTermRows df B).length = countFinitePosCells df
    ∧ ∀ r ∈ buildTermRows df B, 0 < r.weight := by
  constructor
  · rw [buildTermRows_eq_spec]
    exact specTermRows_length df h1 h2
  · intro r hr
    rw [buildTermRows_eq_spec] at hr
    unfold specTermRows at hr
    obtain ⟨c, _, hrc⟩ := List.mem_flatMap.mp hr
    obtain ⟨p, _, heq⟩ := List.mem_filterMap.mp hrc
    by_cases hm : maskB p.2
    · rw [if_pos hm] at heq
      have hreq := Option.some.inj heq
      cases hv : p.2 with
      | fin q =>
          have hq : 0 < q := by
            have := hm
            rw [hv] at this
            simpa [maskB, isFiniteB, gtZeroB] using this
          rw [← hreq]
          simpa [valOf, hv] using hq
      | nan => rw [hv] at hm; simp [maskB, isFiniteB] at hm
      | posInf => rw [hv] at hm; simp [maskB, isFiniteB] at hm
      | negInf => rw [hv] at hm; simp [maskB, isFiniteB] at hm
    · rw [if_neg hm] at heq
      exact absurd heq (by simp)

/-- Witness for C2 on a concrete two-row matrix holding a zero, a negative
infinity, a `NaN`, a positive infinity and two positive finite cells. -/
theorem build_annotations_sparsity_witness :
    ((AnnDF.mk ["s1", "s2"] [some "c1", none]
        [("study_id", [CVal.fin 9, CVal.fin 9]),
         ("terms_tfidf__alpha", [CVal.fin 1, CVal.fin 0]),
         ("other", [CVal.fin 5, CVal.fin 5]),
         ("terms_tfidf__beta", [CVal.nan, CVal.negInf]),
         ("terms_tfidf__gamma", [CVal.posInf, CVal.fin (1/2)])]).cids.length
      = (AnnDF.mk ["s1", "s2"] [some "c1", none]
        [("study_id", [CVal.fin 9, CVal.fin 9]),
         ("terms_tfidf__alpha", [CVal.fin 1, CVal.fin 0]),
         ("other", [CVal.fin 5, CVal.fin 5]),
         ("terms_tfidf__beta", [CVal.nan, CVal.negInf]),
         ("terms_tfidf__gamma", [CVal.posInf, CVal.fin (1/2)])]).sids.length)
    ∧ (∀ c ∈ (AnnDF.mk ["s1", "s2"] [some "c1", none]
        [("study_id", [CVal.fin 9, CVal.fin 9]),
         ("terms_tfidf__alpha", [CVal.fin 1, CVal.fin 0]),
         ("other", [CVal.fin 5, CVal.fin 5]),
         ("terms_tfidf__beta", [CVal.nan, CVal.negInf]),
         ("terms_tfidf__gamma", [CVal.posInf, CVal.fin (1/2)])]).cols, (c.2).length = 2)
    ∧ ((buildTermRows (AnnDF.mk ["s1", "s2"] [some "c1", none]
        [("study_id", [CVal.fin 9, CVal.fin 9]),
         ("terms_tfidf__alpha", [CVal.fin 1, CVal.fin 0]),
         ("other", [CVal.fin 5, CVal.fin 5]),
         ("terms_tfidf__beta", [CVal.nan, CVal.negInf]),
         ("terms_tfidf__gamma", [CVal.posInf, CVal.fin (1/2)])]) 150).length
        = countFinitePosCells (AnnDF.mk ["s1", "s2"] [some "c1", none]
        [("study_id", [CVal.fin 9, CVal.fin 9]),
         ("terms_tfidf__alpha", [CVal.fin 1, CVal.fin 0]),
         ("other", [CVal.fin 5, CVal.fin 5]),
         ("terms_tfidf__beta", [CVal.nan, CVal.negInf]),
         ("terms_tfidf__gamma", [CVal.posInf, CVal.fin (1/2)])])
      ∧ ∀ r ∈ buildTermRows (AnnDF.mk ["s1", "s2"] [some "c1", none]
        [("study_id", [CVal.fin 9, CVal.fin 9]),
         ("terms_tfidf__alpha", [CVal.fin 1, CVal.fin 0]),
         ("other", [CVal.fin 5, CVal.fin 5]),
         ("terms_tfidf__beta", [CVal.nan, CVal.negInf]),
         ("terms_tfidf__gamma", [CVal.posInf, CVal.fin (1/2)])]) 150, 0 < r.weight) :=
  ⟨by decide, by decide, build_annotations_sparsity _ 150 (by decide) (by decide)⟩

/-- Claim C3: the emitted annotation rows are identical for every batch width
`B ≥ 1` — batching is a memory knob, not a semantic one (list equality, which
is stronger than the claimed set equality). -/
theorem build_annotations_batch_invariance (df : AnnDF) (B B' : Nat)
    (hB : 1 ≤ B) (hB' : 1 ≤ B') :
    buildTermRows df B = buildTermRows df B' := by
  rw [buildTermRows_eq_spec, buildTermRows_eq_spec]

/-- Witness for C3: width 1 and width 3 (= the number of term columns) agree on
a concrete matrix. -/
theorem build_annotations_batch_invariance_witness :
    1 ≤ 1 ∧ 1 ≤ 3
    ∧ buildTermRows (AnnDF.mk ["s1", "s2"] [none, some "c2"]
        [("terms_lda__t1", [CVal.fin 2, CVal.nan]),
         ("terms_lda__t2", [CVal.fin 0, CVal.fin 3]),
         ("terms_lda__t3", [CVal.negInf, CVal.posInf])]) 1
      = buildTermRows (AnnDF.mk ["s1", "s2"] [none, some "c2"]
        [("terms_lda__t1", [CVal.fin 2, CVal.nan]),
         ("terms_lda__t2", [CVal.fin 0, CVal.fin 3]),
         ("terms_lda__t3", [CVal.negInf, CVal.posInf])]) 3 :=
  ⟨Nat.le_refl 1, by omega,
    build_annotations_batch_invariance _ 1 3 (by omega) (by omega)⟩

/-- The externally visible actions of `build_annotations`
(src/create_db.py lines 199-267) in program order: the `annotations_terms`
DDL, one `COPY` per non-empty batch (`if term_rows:`), then the post-load
index/constraint build. -/
inductive AnnStep where
  | createTermsTable
  | copyBatch (rows : List TermRow)
  | buildIndexes
deriving DecidableEq

/-- `build_annotations` up to the post-load constraint build: the guard
`if not term_cols: raise RuntimeError("No term columns found in annotations.*")`
(src/create_db.py lines 202-204) fires before any DDL or `COPY` is issued, so
the error branch carries no step at all; otherwise the table is created, each
batch with rows is streamed, and the index build runs. -/
def build_annotations_steps (df : AnnDF) (batch_cols : Nat) : Except String (List AnnStep) :=
  if (termColsOf df).isEmpty then .error "No term columns found in annotations.*"
  else .ok ([AnnStep.createTermsTable]
    ++ ((chunksOf batch_cols (termColsOf df)).filterMap fun cols =>
          let tr := batchRows df cols
          if tr.isEmpty then none else some (AnnStep.copyBatch tr))
    ++ [AnnStep.buildIndexes])

/-- The key triple of the `ux_annotations_terms` unique index
(src/create_db.py line 266): `(study_id, contrast_id, term)`. -/
def keyOf (r : TermRow) : String × Option String × String :=
  (r.study_id, r.contrast_id, r.term)

/-- Modelled from the spec: the backend's unique-index builder invoked by
`CREATE UNIQUE INDEX ux_annotations_terms ON annotations_terms (study_id,
contrast_id, term)` (src/create_db.py line 266) is not part of this repository.
Per §4.4 of the spec, the post-load constraint build fails — surfacing the
violation to the caller — exactly when duplicate `(study, contrast, term)`
triples exist in the loaded data, an absent `contrast_id` comparing equal to an
absent one. -/
def uniqueConstraintBuild (rows : List TermRow) : Except String Unit :=
  if (rows.map keyOf).Nodup then .ok ()
  else .error "could not create unique index ux_annotations_terms"

/-- The whole annotation load (src/create_db.py lines 199-267): guard and DDL,
batched melt + `COPY`, then the post-load uniqueness-constraint build; any
error propagates to the caller (there is no `try`/`except` around the load). -/
def build_annotations_load (df : AnnDF) (batch_cols : Nat) : Except String (List TermRow) :=
  match build_annotations_steps df batch_cols with
  | .error e => .error e
  | .ok _ =>
      match uniqueConstraintBuild (buildTermRows df batch_cols) with
      | .ok _ => .ok (buildTermRows df batch_cols)
      | .error e => .error e

/-- Claim C10: when no column outside the identifier columns starts with
`terms_`, `build_annotations` fails with the `RuntimeError` before creating any
table or writing any record (the error branch of the step model carries no
step); an annotation matrix with term columns present — even all-empty ones —
is not an error. -/
theorem build_annotations_no_term_columns_guard (df : AnnDF) (B : Nat) :
    ((∀ p ∈ df.cols, ¬ p.1 ∈ fixedCols → startsWithTermsB p.1 = false) →
      build_annotations_steps df B = .error "No term columns found in annotations.*")
    ∧ (termColsOf df ≠ [] → ∃ steps, build_annotations_steps df B = .ok steps) := by
  constructor
  · intro h
    have hnil : termColsOf df = [] := by
      apply List.filter_eq_nil_iff.mpr
      intro p hp
      by_cases hf : p.1 ∈ fixedCols
      · intro hcontra
        have hc : fixedCols.contains p.1 = true := by simpa using hf
        rw [Bool.and_eq_true, hc] at hcontra
        simp at hcontra
      · intro hcontra
        rw [Bool.and_eq_true, h p hp hf] at hcontra
        simp at hcontra
    simp [build_annotations_steps, hnil]
  · intro h
    unfold build_annotations_steps
    rw [if_neg (by simpa [List.isEmpty_iff] using h)]
    exact ⟨_, rfl⟩

/-- Witness for C10: a frame whose only non-identifier column is `foo` errors;
a frame with a single all-zero `terms_` column loads without error. -/
theorem build_annotations_no_term_columns_guard_witness :
    ((∀ p ∈ (AnnDF.mk ["s"] [none]
        [("study_id", [CVal.fin 1]), ("foo", [CVal.fin 2])]).cols,
        ¬ p.1 ∈ fixedCols → startsWithTermsB p.1 = false)
      ∧ build_annotations_steps (AnnDF.mk ["s"] [none]
          [("study_id", [CVal.fin 1]), ("foo", [CVal.fin 2])]) 150
        = .error "No term columns found in annotations.*")
    ∧ (termColsOf (AnnDF.mk ["s"] [none] [("terms_v__a", [CVal.fin 0])]) ≠ []
      ∧ ∃ steps, build_annotations_steps
          (AnnDF.mk ["s"] [none] [("terms_v__a", [CVal.fin 0])]) 150 = .ok steps) :=
  ⟨⟨by decide,
    (build_annotations_no_term_columns_guard
      (AnnDF.mk ["s"] [none] [("study_id", [CVal.fin 1]), ("foo", [CVal.fin 2])]) 150).1
      (by decide)⟩,
   ⟨by decide,
    (build_annotations_no_term_columns_guard
      (AnnDF.mk ["s"] [none] [("terms_v__a", [CVal.fin 0])]) 150).2 (by decide)⟩⟩

/-- Claim C4: a successful full load yields no two records sharing a
`(study_id, contrast_id, term)` triple (absent `contrast_id` included), and a
source matrix whose melt produces duplicate triples makes the post-load
constraint build fail with an error surfaced to the caller, never silently
resolved. -/
theorem annotations_uniqueness_constraint (df : AnnDF) (B : Nat) :
    (∀ rows, build_annotations_load df B = .ok rows → (rows.map keyOf).Nodup)
    ∧ (¬ ((buildTermRows df B).map keyOf).Nodup →
        build_annotations_load df B
          = .error "could not create unique index ux_annotations_terms") := by
  constructor
  · intro rows hok
    unfold build_annotations_load at hok
    cases hs : build_annotations_steps df B with
    | error e => rw [hs] at hok; exact absurd hok (by simp)
    | ok l =>
        rw [hs] at hok
        unfold uniqueConstraintBuild at hok
        by_cases hn : ((buildTermRows df B).map keyOf).Nodup
        · rw [if_pos hn] at hok
          simp only [Except.ok.injEq] at hok
          rw [← hok]
          exact hn
        · rw [if_neg hn] at hok
          exact absurd hok (by simp)
  · intro hn
    have hne : ¬ (termColsOf df).isEmpty = true := by
      intro he
      apply hn
      have hl : termColsOf df = [] := List.isEmpty_iff.mp he
      simp [buildTermRows, hl, chunksOf]
    unfold build_annotations_load build_annotations_steps
    rw [if_neg hne]
    unfold uniqueConstraintBuild
    rw [if_neg hn]

/-- Witness for C4: one `terms_` column loads with distinct triples; two
columns that strip to the same term name collide on every row and make the
constraint build fail. -/
theorem annotations_uniqueness_constraint_witness :
    (build_annotations_load (AnnDF.mk ["s"] [some "c"] [("terms_a__x", [CVal.fin 1])]) 150
        = .ok [TermRow.mk "s" (some "c") "x" 1]
      ∧ (([TermRow.mk "s" (some "c") "x" 1]).map keyOf).Nodup)
    ∧ (¬ ((buildTermRows (AnnDF.mk ["s"] [some "c"]
          [("terms_a__x", [CVal.fin 1]), ("terms_b__x", [CVal.fin 2])]) 150).map keyOf).Nodup
      ∧ build_annotations_load (AnnDF.mk ["s"] [some "c"]
          [("terms_a__x", [CVal.fin 1]), ("terms_b__x", [CVal.fin 2])]) 150
        = .error "could not create unique index ux_annotations_terms") :=
  ⟨⟨by rfl,
    (annotations_uniqueness_constraint
        (AnnDF.mk ["s"] [some "c"] [("terms_a__x", [CVal.fin 1])]) 150).1
      [TermRow.mk "s" (some "c") "x" 1] (by rfl)⟩,
   ⟨by decide,
    (annotations_uniqueness_constraint
        (AnnDF.mk ["s"] [some "c"]
          [("terms_a__x", [CVal.fin 1]), ("terms_b__x", [CVal.fin 2])]) 150).2
      (by decide)⟩⟩

theorem dropVocabSeg_append : ∀ (l : List Char), '_' ∉ l → ∀ (t : List Char),
    dropVocabSeg (l ++ '_' :: '_' :: t) = some t := by
  intro l
  induction l with
  | nil => intro _ t; simp [dropVocabSeg]
  | cons c cs ih =>
      intro h t
      simp only [List.mem_cons, not_or] at h
      have hc : ¬ c = '_' := fun e => h.1 e.symm
      simp only [List.cons_append, dropVocabSeg, hc, if_false]
      exact ih h.2 t

theorem stripTagChars_convention (v t : List Char) (hv : '_' ∉ v) :
    stripTagChars ('t' :: 'e' :: 'r' :: 'm' :: 's' :: '_' :: (v ++ '_' :: '_' :: t)) = t := by
  simp [stripTagChars, dropVocabSeg_append v hv t]

theorem termNameOf_convention (v t : String) (hv : '_' ∉ v.data) :
    termNameOf ("terms_" ++ v ++ "__" ++ t) = String.mk (lowerChars (trimChars t.data)) := by
  have hd : ("terms_" ++ v ++ "__" ++ t).data
      = 't' :: 'e' :: 'r' :: 'm' :: 's' :: '_' :: (v.data ++ '_' :: '_' :: t.data) := by
    rw [String.data_append, String.data_append, String.data_append]
    rw [List.append_assoc, List.append_assoc]
    rfl
  unfold termNameOf
  rw [hd, stripTagChars_convention v.data t.data hv]

theorem rowsOfCol_term_shared (sids : List String) (cids : List (Option String))
    (name : String) (vals : List CVal) :
    ∀ r ∈ rowsOfCol sids cids name vals, r.term = termNameOf name := by
  intro r hr
  obtain ⟨p, _, heq⟩ := List.mem_filterMap.mp hr
  by_cases hm : maskB p.2
  · rw [if_pos hm] at heq
    rw [← Option.some.inj heq]
  · rw [if_neg hm] at heq
    exact absurd heq (by simp)

/-- Claim C9: for a term column named under the convention
`terms_<vocab>__<term segment>` (vocabulary marker free of underscores), the
term name of every emitted record is the column name with the
prefix-and-vocabulary-marker segment stripped and normalized (stripped of
surrounding whitespace, lower-cased), and this one derived name is shared by
every record emitted from that column. -/
theorem term_name_derivation (sids : List String) (cids : List (Option String))
    (vals : List CVal) (v t : String) (hv : '_' ∉ v.data) :
    termNameOf ("terms_" ++ v ++ "__" ++ t) = String.mk (lowerChars (trimChars t.data))
    ∧ ∀ r ∈ rowsOfCol sids cids ("terms_" ++ v ++ "__" ++ t) vals,
        r.term = String.mk (lowerChars (trimChars t.data)) := by
  refine ⟨termNameOf_convention v t hv, ?_⟩
  intro r hr
  rw [rowsOfCol_term_shared sids cids _ vals r hr]
  exact termNameOf_convention v t hv

/-- Witness for C9 on the column `terms_tfidf__ Memory A `: every emitted
record's term is `"memory a"`. -/
theorem term_name_derivation_witness :
    ('_' ∉ "tfidf".data)
    ∧ String.mk (lowerChars (trimChars " Memory A ".data)) = "memory a"
    ∧ (termNameOf ("terms_" ++ "tfidf" ++ "__" ++ " Memory A ")
        = String.mk (lowerChars (trimChars " Memory A ".data))
      ∧ ∀ r ∈ rowsOfCol ["s1", "s2"] [none, some "c"]
          ("terms_" ++ "tfidf" ++ "__" ++ " Memory A ") [CVal.fin 1, CVal.fin 3],
          r.term = String.mk (lowerChars (trimChars " Memory A ".data))) :=
  ⟨by decide, by decide,
    term_name_derivation ["s1", "s2"] [none, some "c"] [CVal.fin 1, CVal.fin 3]
      "tfidf" " Memory A " (by decide)⟩

/-- The required coordinate columns (`must_have`, src/create_db.py line 74). -/
def must_have : List String := ["study_id", "x", "y", "z"]

/-- The coordinates dataframe: its column-name list, and — for the columns the
loader extracts (lines 78-81) — `df["study_id"].astype(str)` plus the
`pd.to_numeric(..., errors="coerce")` views of x, y and z. -/
structure CoordDF where
  cols : List String
  sids : List String
  x : List CVal
  y : List CVal
  z : List CVal

/-- The source coordinate rows: the four extracted columns zipped positionally. -/
def coordRows (df : CoordDF) : List (String × ((CVal × CVal) × CVal)) :=
  df.sids.zip ((df.x.zip df.y).zip df.z)

/-- The finite mask of one row
(`is_finite_series(df["x"]) & is_finite_series(df["y"]) & is_finite_series(df["z"])`,
src/create_db.py lines 64-66 and 82): all three coordinates must coerce to a
finite number; the projection yields their values. -/
def finiteTriple : ((CVal × CVal) × CVal) → Option (ℚ × ℚ × ℚ)
  | ((CVal.fin a, CVal.fin b), CVal.fin c) => some (a, b, c)
  | _ => none

/-- `build_coordinates` up to the backend DDL (src/create_db.py lines 72-86):
the required-column check (lines 74-77; the `KeyError` payload is modelled as
the enumerated list of missing names the code builds, its message formatting
abstracted), then the finite-mask filter with `bad = (~finite_mask).sum()`
dropped rows (lines 82-86).  The kept rows are what reaches the staging table
and becomes the loaded geometry relation. -/
def build_coordinates_model (df : CoordDF) :
    Except (List String) (List (String × ℚ × ℚ × ℚ) × Nat) :=
  let missing := must_have.filter fun c => !(df.cols.contains c)
  if missing.isEmpty then
    let rows := coordRows df
    let keep := rows.filterMap fun r => (finiteTriple r.2).map fun q => (r.1, q)
    .ok (keep, rows.length - keep.length)
  else .error missing

theorem filterMap_length_add_countP_none (f : α → Option β) : ∀ (l : List α),
    (l.filterMap f).length + l.countP (fun a => (f a).isNone) = l.length := by
  intro l
  induction l with
  | nil => simp
  | cons a l ih =>
      cases hfa : f a with
      | none => simp [List.filterMap_cons, hfa, List.countP_cons]; omega
      | some b => simp [List.filterMap_cons, hfa, List.countP_cons]; omega

/-- Claim C5: with the required columns present, `build_coordinates` loads
exactly the rows whose x, y and z all coerce to finite numbers — in source
order, with their parsed values — and the reported drop count equals the
number of rows with a non-finite coordinate (the rectangularity hypotheses say
every column has one value per source row). -/
theorem build_coordinates_finite_filtering (df : CoordDF)
    (hc : ∀ c ∈ must_have, df.cols.contains c = true)
    (hx : df.x.length = df.sids.length) (hy : df.y.length = df.sids.length)
    (hz : df.z.length = df.sids.length) :
    build_coordinates_model df
      = .ok ((coordRows df).filterMap fun r => (finiteTriple r.2).map fun q => (r.1, q),
          (coordRows df).countP fun r => (finiteTriple r.2).isNone)
    ∧ (coordRows df).length = df.sids.length := by
  have hmiss : (must_have.filter fun c => !(df.cols.contains c)) = [] := by
    apply List.filter_eq_nil_iff.mpr
    intro c hcm
    intro hcon
    rw [hc c hcm] at hcon
    simp at hcon
  constructor
  · unfold build_coordinates_model
    rw [hmiss]
    have hlen := filterMap_length_add_countP_none
      (fun r => (finiteTriple r.2).map fun q => (r.1, q)) (coordRows df)
    have hpred : (fun r => (((finiteTriple r.2).map fun q => (r.1, q))).isNone)
        = fun (r : String × ((CVal × CVal) × CVal)) => (finiteTriple r.2).isNone := by
      funext r
      cases finiteTriple r.2 <;> rfl
    rw [hpred] at hlen
    simp only [List.isEmpty_nil, if_true, Except.ok.injEq, Prod.mk.injEq, true_and]
    omega
  · simp [coordRows, hx, hy, hz]

/-- Witness for C5 on the claim's own instance
`[(s1, 1,2,3), (s2, NaN,2,3), (s3, 4,5,6)]`: exactly `s1` and `s3` are loaded
and the drop count is 1. -/
theorem build_coordinates_finite_filtering_witness :
    (∀ c ∈ must_have, (CoordDF.mk ["study_id", "x", "y", "z"] ["s1", "s2", "s3"]
        [CVal.fin 1, CVal.nan, CVal.fin 4] [CVal.fin 2, CVal.fin 2, CVal.fin 5]
        [CVal.fin 3, CVal.fin 3, CVal.fin 6]).cols.contains c = true)
    ∧ build_coordinates_model (CoordDF.mk ["study_id", "x", "y", "z"] ["s1", "s2", "s3"]
        [CVal.fin 1, CVal.nan, CVal.fin 4] [CVal.fin 2, CVal.fin 2, CVal.fin 5]
        [CVal.fin 3, CVal.fin 3, CVal.fin 6])
      = .ok ([("s1", 1, 2, 3), ("s3", 4, 5, 6)], 1)
    ∧ (build_coordinates_model (CoordDF.mk ["study_id", "x", "y", "z"] ["s1", "s2", "s3"]
        [CVal.fin 1, CVal.nan, CVal.fin 4] [CVal.fin 2, CVal.fin 2, CVal.fin 5]
        [CVal.fin 3, CVal.fin 3, CVal.fin 6])
      = .ok ((coordRows (CoordDF.mk ["study_id", "x", "y", "z"] ["s1", "s2", "s3"]
            [CVal.fin 1, CVal.nan, CVal.fin 4] [CVal.fin 2, CVal.fin 2, CVal.fin 5]
            [CVal.fin 3, CVal.fin 3, CVal.fin 6])).filterMap
            (fun r => (finiteTriple r.2).map fun q => (r.1, q)),
          (coordRows (CoordDF.mk ["study_id", "x", "y", "z"] ["s1", "s2", "s3"]
            [CVal.fin 1, CVal.nan, CVal.fin 4] [CVal.fin 2, CVal.fin 2, CVal.fin 5]
            [CVal.fin 3, CVal.fin 3, CVal.fin 6])).countP
            fun r => (finiteTriple r.2).isNone)
      ∧ (coordRows (CoordDF.mk ["study_id", "x", "y", "z"] ["s1", "s2", "s3"]
            [CVal.fin 1, CVal.nan, CVal.fin 4] [CVal.fin 2, CVal.fin 2, CVal.fin 5]
            [CVal.fin 3, CVal.fin 3, CVal.fin 6])).length = 3) :=
  ⟨by decide, by rfl,
    build_coordinates_finite_filtering
      (CoordDF.mk ["study_id", "x", "y", "z"] ["s1", "s2", "s3"]
        [CVal.fin 1, CVal.nan, CVal.fin 4] [CVal.fin 2, CVal.fin 2, CVal.fin 5]
        [CVal.fin 3, CVal.fin 3, CVal.fin 6])
      (by decide) (by decide) (by decide) (by decide)⟩

/-- Claim C6: a dataset missing required columns fails fast with an error
enumerating exactly the missing names (the filter keeps precisely the
`must_have` entries absent from the frame, in their canonical order), while
invalid data values never raise: with the required columns present,
`build_coordinates` returns normally on any cell values, and
`build_annotations` returns normally on any cell values once a term column
exists (`contrast_id` is not required — an absent column is defaulted at
src/create_db.py line 232). -/
theorem loader_missing_columns_fail_fast (df : CoordDF) (adf : AnnDF) (B : Nat) :
    ((must_have.filter fun c => !(df.cols.contains c)) ≠ [] →
      build_coordinates_model df
        = .error (must_have.filter fun c => !(df.cols.contains c)))
    ∧ ((must_have.filter fun c => !(df.cols.contains c)) = [] →
      ∃ out, build_coordinates_model df = .ok out)
    ∧ (termColsOf adf ≠ [] →
      ∃ steps, build_annotations_steps adf B = .ok steps) := by
  refine ⟨?_, ?_, ?_⟩
  · intro h
    unfold build_coordinates_model
    rw [if_neg (by simpa [List.isEmpty_iff] using h)]
  · intro h
    unfold build_coordinates_model
    rw [h]
    exact ⟨_, rfl⟩
  · intro h
    unfold build_annotations_steps
    rw [if_neg (by simpa [List.isEmpty_iff] using h)]
    exact ⟨_, rfl⟩

/-- Witness for C6: a coordinates frame with only `study_id` and `x` fails with
exactly `["y", "z"]`; frames with all required columns but invalid (`NaN`,
`inf`) values load without error, as does an annotations frame whose only term
column is all-`NaN`. -/
theorem loader_missing_columns_fail_fast_witness :
    ((must_have.filter fun c =>
        !((CoordDF.mk ["study_id", "x"] [] [] [] []).cols.contains c)) = ["y", "z"])
    ∧ (build_coordinates_model (CoordDF.mk ["study_id", "x"] [] [] [] [])
        = .error (must_have.filter fun c =>
            !((CoordDF.mk ["study_id", "x"] [] [] [] []).cols.contains c)))
    ∧ (∃ out, build_coordinates_model (CoordDF.mk ["study_id", "x", "y", "z"]
        ["s"] [CVal.nan] [CVal.posInf] [CVal.fin 0]) = .ok out)
    ∧ (∃ steps, build_annotations_steps
        (AnnDF.mk ["s"] [none] [("terms_v__a", [CVal.nan])]) 150 = .ok steps) :=
  ⟨by decide,
    (loader_missing_columns_fail_fast (CoordDF.mk ["study_id", "x"] [] [] [] [])
      (AnnDF.mk [] [] []) 150).1 (by decide),
    (loader_missing_columns_fail_fast (CoordDF.mk ["study_id", "x", "y", "z"]
        ["s"] [CVal.nan] [CVal.posInf] [CVal.fin 0]) (AnnDF.mk [] [] []) 150).2.1 (by decide),
    (loader_missing_columns_fail_fast (CoordDF.mk ["study_id", "x"] [] [] [] [])
      (AnnDF.mk ["s"] [none] [("terms_v__a", [CVal.nan])]) 150).2.2 (by decide)⟩

/-- Python dict assignment `d[k] = v`: replace the value at the first
occurrence of the key (keeping its position), else append — CPython insertion
order with last value winning. -/
def pySet [DecidableEq α] : List (α × β) → α → β → List (α × β)
  | [], k, v => [(k, v)]
  | p :: d, k, v => if p.1 = k then (k, v) :: d else p :: pySet d k v

/-- Python dict lookup `d.get(k)`. -/
def pyLookup [DecidableEq α] : List (α × β) → α → Option β
  | [], _ => none
  | p :: d, k => if p.1 = k then some p.2 else pyLookup d k

/-- Python `dict(pairs)`. -/
def pyDict [DecidableEq α] (ps : List (α × β)) : List (α × β) :=
  ps.foldl (fun d p => pySet d p.1 p.2) []

theorem pyLookup_pySet_self [DecidableEq α] (k : α) (v : β) :
    ∀ (d : List (α × β)), pyLookup (pySet d k v) k = some v := by
  intro d
  induction d with
  | nil => simp [pySet, pyLookup]
  | cons p d ih =>
      by_cases h : p.1 = k
      · simp [pySet, pyLookup, h]
      · simp [pySet, pyLookup, h, ih]

theorem pyLookup_pySet_other [DecidableEq α] (k q : α) (v : β) (hne : q ≠ k) :
    ∀ (d : List (α × β)), pyLookup (pySet d k v) q = pyLookup d q := by
  have hkq : ¬ k = q := fun h => hne h.symm
  intro d
  induction d with
  | nil => simp [pySet, pyLookup, hkq]
  | cons p d ih =>
      by_cases h : p.1 = k
      · simp [pySet, pyLookup, h, hkq]
      · simp [pySet, pyLookup, h, ih]

/-- Modelled from the spec: the backend session the Feature Verifier probes.
§4.7 characterizes it by whether the current transaction is in the aborted
state; the backend itself is not part of this repository. -/
structure PgConn where
  aborted : Bool
deriving DecidableEq

/-- Intrinsic outcome of one SQL statement: result rows (possibly none, e.g.
`CREATE EXTENSION`) or a backend error. -/
inductive ExecOut where
  | rows (rs : List String)
  | err (msg : String)

/-- One summary entry of `check_db.run` (src/check_db.py lines 36 and 41):
`{"ok": True, "result": rows[:1]}` or `{"ok": False, "error": str(e)}`. -/
inductive Entry where
  | succeeded (firstRows : List String)
  | failed (errText : String)
deriving DecidableEq

/-- Modelled from the spec: executing a statement in the session.  The
statement's own outcome is `oracle sql`; a session stuck in an aborted
transaction refuses every statement until `ROLLBACK` (the hazard §4.7 says the
per-probe reset protects later probes from), and a failing statement leaves
the session aborted. -/
def execStmt (oracle : String → ExecOut) (c : PgConn) (sql : String) :
    ExecOut × PgConn :=
  if c.aborted then (.err "current transaction is aborted", c)
  else match oracle sql with
    | .rows rs => (.rows rs, c)
    | .err m => (.err m, ⟨true⟩)

/-- `conn.exec_driver_sql("ROLLBACK")` (src/check_db.py line 44): clear any
aborted-transaction state. -/
def rollbackConn (_ : PgConn) : PgConn := ⟨false⟩

/-- `check_db.run` (src/check_db.py lines 19-47): execute the statement; on
success record `{"ok": True, "result": rows[:1]}` under the probe's key; on
failure catch the error, record `{"ok": False, "error": str(e)}`, and issue
`ROLLBACK` so subsequent statements can proceed.  Returns the ok flag, the
session, and the updated summary; no branch re-raises. -/
def runProbe (oracle : String → ExecOut) (c : PgConn) (sql key : String)
    (summary : List (String × Entry)) : Bool × PgConn × List (String × Entry) :=
  match execStmt oracle c sql with
  | (.rows rs, c2) => (true, c2, pySet summary key (.succeeded (rs.take 1)))
  | (.err m, c2) => (false, rollbackConn c2, pySet summary key (.failed m))

/-- A verifier session (`main` with `check_tsvector`/`check_pgvector`/
`check_postgis`, src/check_db.py lines 107-125): run each `(key, sql)` probe in
order, threading the session and the summary dict from a healthy session and
an empty summary. -/
def runProbes (oracle : String → ExecOut) (probes : List (String × String)) :
    PgConn × List (String × Entry) :=
  probes.foldl (fun st p =>
    let r := runProbe oracle st.1 p.2 p.1 st.2
    (r.2.1, r.2.2)) (⟨false⟩, [])

/-- The summary entry a probe should produce from its own statement alone. -/
def expectedEntry (oracle : String → ExecOut) (sql : String) : Entry :=
  match oracle sql with
  | .rows rs => .succeeded (rs.take 1)
  | .err m => .failed m

theorem runProbe_healthy (oracle : String → ExecOut) (sql key : String)
    (s : List (String × Entry)) :
    runProbe oracle ⟨false⟩ sql key s
      = (match oracle sql with | .rows _ => true | .err _ => false, ⟨false⟩,
          pySet s key (expectedEntry oracle sql)) := by
  cases h : oracle sql <;>
    simp [runProbe, execStmt, rollbackConn, expectedEntry, h]

theorem runProbes_foldl (oracle : String → ExecOut) :
    ∀ (probes : List (String × String)) (s : List (String × Entry)),
    probes.foldl (fun st p =>
        let r := runProbe oracle st.1 p.2 p.1 st.2
        (r.2.1, r.2.2)) (⟨false⟩, s)
      = (⟨false⟩, probes.foldl
          (fun acc q => pySet acc q.1 (expectedEntry oracle q.2)) s) := by
  intro probes
  induction probes with
  | nil => intro s; rfl
  | cons q qs ih =>
      intro s
      simp only [List.foldl_cons, runProbe_healthy]
      exact ih (pySet s q.1 (expectedEntry oracle q.2))

theorem foldl_pySet_lookup_notmem (f : String × String → Entry) :
    ∀ (qs : List (String × String)) (s : List (String × Entry)) (k : String),
    k ∉ qs.map Prod.fst →
    pyLookup (qs.foldl (fun acc q => pySet acc q.1 (f q)) s) k = pyLookup s k := by
  intro qs
  induction qs with
  | nil => intro s k _; rfl
  | cons q qs ih =>
      intro s k hk
      simp only [List.map_cons, List.mem_cons, not_or] at hk
      simp only [List.foldl_cons]
      rw [ih _ k hk.2, pyLookup_pySet_other q.1 k (f q) hk.1]

theorem foldl_pySet_lookup (oracle : String → ExecOut) :
    ∀ (probes : List (String × String)) (s : List (String × Entry)),
    (probes.map Prod.fst).Nodup →
    ∀ p ∈ probes,
      pyLookup (probes.foldl (fun acc q => pySet acc q.1 (expectedEntry oracle q.2)) s) p.1
        = some (expectedEntry oracle p.2) := by
  intro probes
  induction probes with
  | nil => intro s _ p hp; exact absurd hp (by simp)
  | cons q qs ih =>
      intro s hnd p hp
      simp only [List.map_cons, List.nodup_cons] at hnd
      rcases List.mem_cons.mp hp with rfl | hmem
      · simp only [List.foldl_cons]
        rw [foldl_pySet_lookup_notmem _ qs _ p.1 hnd.1]
        exact pyLookup_pySet_self p.1 _ s
      · simp only [List.foldl_cons]
        exact ih _ hnd.2 p hmem

/-- Claim C8: probes are isolated.  For any backend oracle and any probe list
with distinct summary keys, every probe — including each one that runs after a
failing probe — ends with a summary entry determined by its own statement
alone: the error text for a failure, the first result row for a success.  So a
failure is caught and recorded, the transaction state is reset (the session
ends healthy), later unrelated probes still execute and can record success,
and no probe failure aborts the run. -/
theorem probe_isolation (oracle : String → ExecOut) (probes : List (String × String))
    (hkeys : (probes.map Prod.fst).Nodup) :
    (runProbes oracle probes).1 = ⟨false⟩
    ∧ ∀ p ∈ probes, pyLookup (runProbes oracle probes).2 p.1
        = some (expectedEntry oracle p.2) := by
  unfold runProbes
  rw [runProbes_foldl oracle probes []]
  exact ⟨rfl, foldl_pySet_lookup oracle probes [] hkeys⟩

/-- Witness for C8: the middle probe fails with `boom`, yet its entry records
the error text and the probe run after it still records success. -/
theorem probe_isolation_witness :
    ((([("k1", "SELECT 1"), ("k2", "BAD"), ("k3", "SELECT 1")] :
        List (String × String)).map Prod.fst).Nodup)
    ∧ ((runProbes (fun sql => if sql = "SELECT 1" then .rows ["1"] else .err "boom")
        [("k1", "SELECT 1"), ("k2", "BAD"), ("k3", "SELECT 1")]).1 = ⟨false⟩
      ∧ ∀ p ∈ ([("k1", "SELECT 1"), ("k2", "BAD"), ("k3", "SELECT 1")] :
          List (String × String)),
          pyLookup (runProbes
            (fun sql => if sql = "SELECT 1" then .rows ["1"] else .err "boom")
            [("k1", "SELECT 1"), ("k2", "BAD"), ("k3", "SELECT 1")]).2 p.1
            = some (expectedEntry
                (fun sql => if sql = "SELECT 1" then .rows ["1"] else .err "boom") p.2))
    ∧ pyLookup (runProbes (fun sql => if sql = "SELECT 1" then .rows ["1"] else .err "boom")
        [("k1", "SELECT 1"), ("k2", "BAD"), ("k3", "SELECT 1")]).2 "k2"
        = some (.failed "boom")
    ∧ pyLookup (runProbes (fun sql => if sql = "SELECT 1" then .rows ["1"] else .err "boom")
        [("k1", "SELECT 1"), ("k2", "BAD"), ("k3", "SELECT 1")]).2 "k3"
        = some (.succeeded ["1"]) :=
  ⟨by decide,
    probe_isolation (fun sql => if sql = "SELECT 1" then .rows ["1"] else .err "boom")
      [("k1", "SELECT 1"), ("k2", "BAD"), ("k3", "SELECT 1")] (by decide),
    by rfl, by rfl⟩

/-- Split a character list at the first occurrence of `sep`: the part before
and the part after; `(l, [])` when `sep` does not occur.  This is both the
query split of `urlparse` (at `?`) and `name_value.split('=', 1)` of
`parse_qsl` (where a missing `=` leaves an empty value, exactly the
`keep_blank_values=True` behaviour for a bare field name). -/
def splitAtFirst (sep : Char) : List Char → List Char × List Char
  | [] => ([], [])
  | c :: cs =>
      if c = sep then ([], cs)
      else
        let r := splitAtFirst sep cs
        (c :: r.1, r.2)

/-- `urlparse` restricted to what `ensure_sslmode_required` consumes: the part
before the first `?` and the query after it.  Database URLs carry no fragment
and the model leaves percent-encoding untouched on both directions of the
round trip, so it is abstracted away. -/
def urlSplitQ (url : List Char) : List Char × List Char := splitAtFirst '?' url

/-- `urlunparse` on the same restriction: re-attach a non-empty query with `?`
(`urlunparse` omits the `?` when the query is empty). -/
def urlJoinQ (base q : List Char) : List Char :=
  if q.isEmpty then base else base ++ '?' :: q

/-- `urllib.parse.parse_qsl(qs, keep_blank_values=True)`: split the query on
`&`, skip empty fields, split each field at its first `=`. -/
def parse_qsl_chars (q : List Char) : List (List Char × List Char) :=
  (q.splitOn '&').filterMap fun seg =>
    if seg.isEmpty then none else some (splitAtFirst '=' seg)

/-- `urllib.parse.urlencode(q)`: join the `k=v` fields with `&`. -/
def urlencode_chars (ps : List (List Char × List Char)) : List Char :=
  List.intercalate ['&'] (ps.map fun p => p.1 ++ '=' :: p.2)

/-- `check_db.ensure_sslmode_required` (src/check_db.py lines 8-17): parse the
URL query, build the Python dict, set `q["sslmode"] = "require"` only when
`q.get("sslmode") is None`, re-encode, and rebuild the URL. -/
def ensure_sslmode_required (db_url : String) : String :=
  let p := urlSplitQ db_url.data
  let q := pyDict (parse_qsl_chars p.2)
  let q2 := if pyLookup q "sslmode".data = none
    then pySet q "sslmode".data "require".data else q
  String.mk (urlJoinQ p.1 (urlencode_chars q2))

/-- `create_db.main` (src/create_db.py lines 293-295) hands the caller's URL to
`create_engine(args.url, pool_pre_ping=True)` verbatim: nothing in
create_db.py rewrites the connection string or touches `sslmode`. -/
def create_db_engine_url (url : String) : String := url

/-- Substring occurrence test, used to state that the loader's engine URL
mentions `sslmode` nowhere. -/
def containsSeq : List Char → List Char → Bool
  | [], need => need.isEmpty
  | c :: t, need => need.isPrefixOf (c :: t) || containsSeq t need

/-- Claim C7, counterexample: the pipeline's loader entry point appends no
encrypted-transport requirement — `create_db.main` passes the caller's URL to
the engine unchanged, so a URL with no `sslmode` reaches the backend without
one (only the separate checker tool rewrites the URL). -/
theorem create_db_url_unchanged_counterexample :
    create_db_engine_url "postgresql://user@host/db" = "postgresql://user@host/db"
    ∧ containsSeq "postgresql://user@host/db".data "sslmode".data = false := by
  decide

theorem splitAtFirst_not_mem (sep : Char) : ∀ (l : List Char), sep ∉ l →
    splitAtFirst sep l = (l, []) := by
  intro l
  induction l with
  | nil => intro _; rfl
  | cons c cs ih =>
      intro h
      simp only [List.mem_cons, not_or] at h
      have hc : ¬ c = sep := fun e => h.1 e.symm
      simp [splitAtFirst, hc, ih h.2]

theorem splitAtFirst_append (sep : Char) : ∀ (l rest : List Char), sep ∉ l →
    splitAtFirst sep (l ++ sep :: rest) = (l, rest) := by
  intro l
  induction l with
  | nil => intro rest _; simp [splitAtFirst]
  | cons c cs ih =>
      intro rest h
      simp only [List.mem_cons, not_or] at h
      have hc : ¬ c = sep := fun e => h.1 e.symm
      simp [splitAtFirst, hc, ih rest h.2]

theorem urlencode_cons_ne_nil (p : List Char × List Char)
    (ps : List (List Char × List Char)) : urlencode_chars (p :: ps) ≠ [] := by
  unfold urlencode_chars
  cases ps with
  | nil => simp [List.intercalate, List.intersperse]
  | cons q qs => simp [List.intercalate, List.intersperse]

theorem filterMap_splitEq_encode :
    ∀ (ps : List (List Char × List Char)), (∀ p ∈ ps, '=' ∉ p.1) →
    ((ps.map fun p => p.1 ++ '=' :: p.2).filterMap fun seg =>
        if seg.isEmpty then none else some (splitAtFirst '=' seg)) = ps := by
  intro ps
  induction ps with
  | nil => intro _; rfl
  | cons p ps ih =>
      intro h
      have hne : (p.1 ++ '=' :: p.2).isEmpty = false := by
        cases hp : p.1 <;> simp [hp]
      simp only [List.map_cons, List.filterMap_cons, hne, Bool.false_eq_true, if_false]
      rw [splitAtFirst_append '=' p.1 p.2 (h p (by simp)),
        ih fun q hq => h q (by simp [hq])]

theorem parse_qsl_encode (ps : List (List Char × List Char))
    (hclean : ∀ p ∈ ps, '&' ∉ p.1 ∧ '=' ∉ p.1 ∧ '&' ∉ p.2) :
    parse_qsl_chars (urlencode_chars ps) = ps := by
  cases ps with
  | nil => rfl
  | cons p0 ps0 =>
      unfold parse_qsl_chars urlencode_chars
      rw [List.splitOn_intercalate ((p0 :: ps0).map fun p => p.1 ++ '=' :: p.2) '&'
        (by
          intro l hl
          obtain ⟨q, hq, rfl⟩ := List.mem_map.mp hl
          have hcq := hclean q hq
          simp only [List.mem_append, List.mem_cons, not_or]
          exact ⟨hcq.1, by decide, hcq.2.2⟩)
        (by exact List.cons_ne_nil _ _)]
      exact filterMap_splitEq_encode (p0 :: ps0) fun q hq => (hclean q hq).2.1

theorem pySet_append [DecidableEq α] (k : α) (v : β) :
    ∀ (d : List (α × β)), k ∉ d.map Prod.fst → pySet d k v = d ++ [(k, v)] := by
  intro d
  induction d with
  | nil => intro _; rfl
  | cons p d ih =>
      intro h
      simp only [List.map_cons, List.mem_cons, not_or] at h
      have hp : ¬ p.1 = k := fun e => h.1 e.symm
      simp [pySet, hp, ih h.2]

theorem pyDict_foldl_nodup [DecidableEq α] :
    ∀ (ps d : List (α × β)), (((d ++ ps).map Prod.fst).Nodup) →
    ps.foldl (fun acc p => pySet acc p.1 p.2) d = d ++ ps := by
  intro ps
  induction ps with
  | nil => intro d _; simp
  | cons p ps ih =>
      intro d hnd
      have hrearr : d ++ p :: ps = (d ++ [p]) ++ ps := by simp
      have hk : p.1 ∉ d.map Prod.fst := by
        intro hmem
        rw [List.map_append] at hnd
        have := (List.nodup_append.mp hnd).2.2
        exact this hmem (by simp)
      simp only [List.foldl_cons]
      rw [pySet_append p.1 p.2 d hk, ih (d ++ [p]) (by rw [← hrearr]; exact hnd)]
      simp

theorem pyDict_nodup [DecidableEq α] (ps : List (α × β))
    (h : (ps.map Prod.fst).Nodup) : pyDict ps = ps := by
  unfold pyDict
  rw [pyDict_foldl_nodup ps [] (by simpa using h)]
  simp

theorem pyLookup_none_iff [DecidableEq α] (k : α) :
    ∀ (d : List (α × β)), pyLookup d k = none ↔ k ∉ d.map Prod.fst := by
  intro d
  induction d with
  | nil => simp [pyLookup]
  | cons p d ih =>
      by_cases h : p.1 = k
      · simp [pyLookup, h]
      · simp only [pyLookup, h, if_false, ih, List.map_cons, List.mem_cons, not_or]
        constructor
        · intro hn
          exact ⟨fun e => h e.symm, hn⟩
        · intro hn
          exact hn.2

/-- Claim C7 (amended): the connection-string rewrite lives in the checker
tool, not the loader.  `ensure_sslmode_required` appends `sslmode=require` to
the query iff the caller did not specify `sslmode`, leaving the base URL and
every caller-supplied parameter — including a caller-specified `sslmode`
value — unchanged; `create_db.main` passes the caller's URL to the engine
verbatim.  The hypotheses describe a well-formed URL: no `?` in the base,
query fields free of the `&`/`=` separators, distinct keys (CPython's
`dict(parse_qsl(...))` collapses duplicates). -/
theorem ensure_sslmode_required_spec (base : List Char)
    (ps : List (List Char × List Char))
    (hbase : '?' ∉ base)
    (hkeys : (ps.map Prod.fst).Nodup)
    (hclean : ∀ p ∈ ps, '&' ∉ p.1 ∧ '=' ∉ p.1 ∧ '&' ∉ p.2) :
    ensure_sslmode_required (String.mk (urlJoinQ base (urlencode_chars ps)))
      = String.mk (urlJoinQ base (urlencode_chars
          (if pyLookup ps "sslmode".data = none
            then ps ++ [("sslmode".data, "require".data)] else ps)))
    ∧ ∀ u : String, create_db_engine_url u = u := by
  refine ⟨?_, fun u => rfl⟩
  cases ps with
  | nil =>
      have hsplit : urlSplitQ (String.mk (urlJoinQ base (urlencode_chars []))).data
          = (base, []) := splitAtFirst_not_mem '?' base hbase
      simp only [ensure_sslmode_required, hsplit]
      rfl
  | cons p0 ps0 =>
      have henc := urlencode_cons_ne_nil p0 ps0
      have hje : urlJoinQ base (urlencode_chars (p0 :: ps0))
          = base ++ '?' :: urlencode_chars (p0 :: ps0) := by
        unfold urlJoinQ
        rw [if_neg (by simpa [List.isEmpty_iff] using henc)]
      have hsplit : urlSplitQ (String.mk (urlJoinQ base (urlencode_chars (p0 :: ps0)))).data
          = (base, urlencode_chars (p0 :: ps0)) := by
        show urlSplitQ (urlJoinQ base (urlencode_chars (p0 :: ps0))) = _
        rw [hje]
        exact splitAtFirst_append '?' base _ hbase
      have hq : pyDict (parse_qsl_chars (urlencode_chars (p0 :: ps0))) = p0 :: ps0 := by
        rw [parse_qsl_encode _ hclean, pyDict_nodup _ hkeys]
      simp only [ensure_sslmode_required, hsplit, hq]
      by_cases h : pyLookup (p0 :: ps0) "sslmode".data = none
      · rw [if_pos h, if_pos h,
          pySet_append _ _ _ ((pyLookup_none_iff _ _).mp h)]
      · rw [if_neg h, if_neg h]

/-- Witness for C7 (amended) on `postgresql://u@h/db?connect_timeout=5` — no
`sslmode`, so `sslmode=require` is appended — and on
`postgresql://u@h/db?sslmode=disable`, kept verbatim. -/
theorem ensure_sslmode_required_spec_witness :
    ('?' ∉ "postgresql://u@h/db".data)
    ∧ (([("connect_timeout".data, "5".data)].map Prod.fst).Nodup)
    ∧ (∀ p ∈ [("connect_timeout".data, "5".data)],
        '&' ∉ p.1 ∧ '=' ∉ p.1 ∧ '&' ∉ p.2)
    ∧ (ensure_sslmode_required (String.mk (urlJoinQ "postgresql://u@h/db".data
          (urlencode_chars [("connect_timeout".data, "5".data)])))
        = String.mk (urlJoinQ "postgresql://u@h/db".data (urlencode_chars
            (if pyLookup [("connect_timeout".data, "5".data)] "sslmode".data = none
              then [("connect_timeout".data, "5".data)]
                ++ [("sslmode".data, "require".data)]
              else [("connect_timeout".data, "5".data)])))
      ∧ ∀ u : String, create_db_engine_url u = u)
    ∧ ensure_sslmode_required "postgresql://u@h/db?connect_timeout=5"
        = "postgresql://u@h/db?connect_timeout=5&sslmode=require"
    ∧ ensure_sslmode_required "postgresql://u@h/db?sslmode=disable"
        = "postgresql://u@h/db?sslmode=disable" :=
  ⟨by decide, by decide, by decide,
    ensure_sslmode_required_spec "postgresql://u@h/db".data
      [("connect_timeout".data, "5".data)] (by decide) (by decide) (by decide),
    by decide, by decide⟩
